import Mathlib

/-!
Verification development for the selector-driven web-novel crawler
(backend/app/services/crawler).  The Python modules are shallowly embedded:

* `crawler_client.py` — `_extract_field`, `_extract_by_xpath`, the
  infinite-scroll loop (`_extract_with_scroll`), the click-pagination loop
  (`_extract_with_pagination`), `extract_detail_page` and `login_to_site`;
* `base.py` — `normalize_novel_data` and `_extract_keywords`;
* `utils.py` — `deduplicate_novels`;
* `platforms/kakao.py` — the per-item `fetch_detail` closure and its
  batched driver inside `crawl_all_novels`.

External libraries (Playwright, BeautifulSoup, lxml) are modelled as
environments: a `CssEngine` stands for the BeautifulSoup `select` method, an
`XPathEngine` for `lxml` evaluation where `none` models an `XPathEvalError`
raised on a malformed expression, and page-level records describe what the
browser returns for each URL.  Python exceptions are modelled with `Except`,
dictionaries with association lists, and Python values that can be either a
string or a list of strings with the `Value` type.
-/

namespace Crawler

/-- Extracted field values: a Python `str` or `list[str]`. -/
inductive Value where
  | str (s : String)
  | list (l : List String)
deriving DecidableEq

/-- Python truthiness of a `Value`: empty string and empty list are falsy. -/
def truthyV : Value → Bool
  | Value.str s => s ≠ ""
  | Value.list l => !l.isEmpty

/-- Python truthiness of `dict.get(...)`: `None` (absent key) is falsy. -/
def truthyO : Option Value → Bool
  | none => false
  | some v => truthyV v

/-- A raw per-item dictionary (`data` in the pagination loops). -/
abbrev RawItem : Type := List (String × Value)

/-!
Models of the Python string methods used by the crawler, written by
structural recursion over the character list of a string so that every
definition evaluates inside the kernel.  `splitGo` scans one character at a
time; after a separator match it skips the remaining separator characters
through the counter argument.  Separators are never empty at any call site
(Python raises `ValueError` there).
-/

def splitGo (sep : List Char) : List Char → List Char → Nat → List (List Char)
  | [], cur, _ => [cur.reverse]
  | _ :: cs, cur, skip + 1 => splitGo sep cs cur skip
  | c :: cs, cur, 0 =>
    if sep.isPrefixOf (c :: cs) then
      cur.reverse :: splitGo sep cs [] (sep.length - 1)
    else
      splitGo sep cs (c :: cur) 0

/-- Python `s.split(sep)` (all occurrences, non-overlapping, left to
right). -/
def pySplit (sep s : String) : List String :=
  (splitGo sep.data s.data [] 0).map String.mk

/-- Python `sub in s` (substring containment). -/
def pyContains (sub s : String) : Bool :=
  (pySplit sub s).length != 1

/-- Python `s.replace(sep, rep)`: split on the separator and re-join with
the replacement. -/
def pyReplace (sep rep s : String) : String :=
  String.intercalate rep (pySplit sep s)

/-- Python `s.startswith(pre)`. -/
def pyStartsWith (pre s : String) : Bool :=
  pre.data.isPrefixOf s.data

/-- Python `s[n:]` (drop the first n characters). -/
def pyDrop (n : Nat) (s : String) : String :=
  String.mk (s.data.drop n)

/-- The whitespace characters stripped by Python `str.strip()`. -/
def isPySpace (c : Char) : Bool :=
  (c == ' ') || (c == '\t') || (c == '\n') || (c == '\r') ||
    (c == '\x0b') || (c == '\x0c')

/-- Python `s.strip()`. -/
def pyStrip (s : String) : String :=
  String.mk (((s.data.dropWhile isPySpace).reverse.dropWhile isPySpace).reverse)

/-- Python `s.lower()`; Unicode case mapping is modelled by the per-char
ASCII lowering, which is the identity on Hangul either way. -/
def pyLower (s : String) : String :=
  String.mk (s.data.map Char.toLower)

/-- A BeautifulSoup element.  `textStrip` models `get_text(strip=True)`;
`attrs` carries the attribute map read by `el.get(attr, "")`. -/
structure Element where
  tag : String
  attrs : List (String × String)
  textStrip : String
deriving DecidableEq

/-- Model of `el.get(attr, "")` on a BeautifulSoup element. -/
def Element.getAttr (el : Element) (attr : String) : String :=
  (el.attrs.lookup attr).getD ""

/-- An lxml element node: `textContent` models `el.text_content()` and
`reprStr` models the Python `str(el)` rendering. -/
structure LElem where
  textContent : String
  reprStr : String
deriving DecidableEq

/-- A node produced by an lxml XPath evaluation: an attribute/text string or
an element node (the latter is exactly what `hasattr(el, "text_content")`
distinguishes in the source). -/
inductive XNode where
  | strNode (s : String)
  | elemNode (e : LElem)
deriving DecidableEq

/-- Python `str(node)`: a string renders as itself, an element as its repr. -/
def pyStr : XNode → String
  | XNode.strNode s => s
  | XNode.elemNode e => e.reprStr

/-- The BeautifulSoup CSS engine: `select el sel` is `el.select(sel)`.
`select_one` is the head of this list. -/
structure CssEngine where
  select : Element → String → List Element

/-- The lxml XPath engine over the serialized markup of a context element.
`eval el expr = none` models `tree.xpath(expr)` raising `XPathEvalError`
(malformed expression); `some nodes` is a successful evaluation. -/
structure XPathEngine where
  eval : Element → String → Option (List XNode)

/-- Python `"[multiple]" in s`. -/
def hasMultiple (s : String) : Bool := pyContains "[multiple]" s

/-- Python `"@" in s`. -/
def hasAttrMark (s : String) : Bool := pyContains "@" s

/-- The part of the selector before the first `@`
(`selector.split("@", 1)[0]`). -/
def cssPartOf (s : String) : String :=
  match pySplit "@" s with
  | [] => ""
  | c :: _ => c

/-- The part of the selector after the first `@`
(`selector.split("@", 1)[1]`). -/
def attrPartOf (s : String) : String :=
  match pySplit "@" s with
  | [] => ""
  | _ :: rest => String.intercalate "@" rest

/-- The `[multiple]` branch of `_extract_by_xpath` (lines 316-322): if the
first result is a text node, every result goes through `str(r).strip()`;
otherwise each result yields `el.text_content().strip()` when it has
`text_content` and `str(el).strip()` when it does not. -/
def multiTexts (results : List XNode) : List String :=
  match results with
  | XNode.strNode _ :: _ => results.map (fun n => pyStrip (pyStr n))
  | _ =>
    results.map (fun n =>
      match n with
      | XNode.elemNode e => pyStrip e.textContent
      | XNode.strNode s => pyStrip s)

/-- The single-value extraction of `_extract_by_xpath` applied to the first
result (lines 332-342). -/
def singleText : XNode → String
  | XNode.strNode s => pyStrip s
  | XNode.elemNode e => pyStrip e.textContent

/-- An XPath result node "has text": whichever rendering the multi-value
branch applies to it yields a non-empty trimmed string. -/
def nodeHasText : XNode → Bool
  | XNode.strNode s => pyStrip s != ""
  | XNode.elemNode e => (pyStrip e.textContent != "") && (pyStrip e.reprStr != "")

/-- `CrawlerClient._extract_by_xpath`.  The `[multiple]` branch calls
`tree.xpath` outside of any try/except, so a malformed expression
(`eval = none`) propagates as an exception (`Except.error`).  The
single-value branch runs inside `try/except` and degrades to `""`. -/
def extract_by_xpath (xeng : XPathEngine) (element : Element) (xpath : String) :
    Except Unit Value :=
  if hasMultiple xpath then
    match xeng.eval element (pyReplace "[multiple]" "" xpath) with
    | none => Except.error ()
    | some results => Except.ok (Value.list (multiTexts results))
  else
    match xeng.eval element xpath with
    | none => Except.ok (Value.str "")
    | some [] => Except.ok (Value.str "")
    | some (r :: _) => Except.ok (Value.str (singleText r))

/-- `CrawlerClient._extract_field`: dispatches on the `xpath:` marker, then
the `[multiple]` modifier, then the `@attr` marker, then plain text. -/
def extract_field (css : CssEngine) (xeng : XPathEngine) (element : Element)
    (selector : String) : Except Unit Value :=
  if pyStartsWith "xpath:" selector then
    extract_by_xpath xeng element (pyDrop 6 selector)
  else if hasMultiple selector then
    Except.ok (Value.list
      ((css.select element (pyReplace "[multiple]" "" selector)).map
        (fun el => el.textStrip)))
  else if hasAttrMark selector then
    match (css.select element (cssPartOf selector)).head? with
    | some el => Except.ok (Value.str (pyStrip (el.getAttr (attrPartOf selector))))
    | none => Except.ok (Value.str "")
  else
    match (css.select element selector).head? with
    | some el => Except.ok (Value.str el.textStrip)
    | none => Except.ok (Value.str "")

/-- The inner per-item loop shared by `_extract_with_scroll` (lines 144-154)
and `_extract_with_pagination` (lines 194-203).  Each scanned item arrives as
its already-extracted `data` dictionary; an item is appended only when the
loop has not reached `limit`, its `url` value is truthy, and no collected
item has an equal `url` value. -/
def addItems (limit : Nat) : List RawItem → List RawItem → List RawItem
  | results, [] => results
  | results, d :: rest =>
    if limit ≤ results.length then results
    else
      addItems limit
        (if truthyO (d.lookup "url")
            && !(results.any (fun r => decide (r.lookup "url" = d.lookup "url")))
         then results ++ [d] else results)
        rest

/-- The `while` loop of `_extract_with_scroll`.  `scans k` is the list of
item dictionaries extracted from the rendered HTML at the k-th scan (the
page state after k scroll-downs).  `noNew` is `no_new_items_count` and the
threshold `max_no_new_items` is 3.  In the source, `previous_count` always
equals `len(results)` at the top of an iteration (it is initialized to 0 for
the empty result list and re-assigned to `len(results)` at the end of every
iteration), so the no-growth test compares the new length against the entry
length.  The returned number is the index of the first scan the loop did not
consume. -/
def scrollGo (scans : Nat → List RawItem) (limit : Nat) (results : List RawItem)
    (noNew : Nat) (k : Nat) : List RawItem × Nat :=
  if h : results.length < limit then
    if hg : (addItems limit results (scans k)).length = results.length then
      if hn : 3 ≤ noNew + 1 then (addItems limit results (scans k), k + 1)
      else scrollGo scans limit (addItems limit results (scans k)) (noNew + 1) (k + 1)
    else scrollGo scans limit (addItems limit results (scans k)) 0 (k + 1)
  else (results, k)
termination_by (limit - results.length, 3 - noNew)
decreasing_by
  · rw [hg]
    apply Prod.Lex.right
    omega
  · have key : ∀ (xs acc : List RawItem), acc.length ≤ (addItems limit acc xs).length := by
      intro xs
      induction xs with
      | nil => intro acc; exact Nat.le_refl _
      | cons d rest ih =>
        intro acc
        rw [addItems]
        split
        · exact Nat.le_refl _
        · refine Nat.le_trans ?_ (ih _)
          split
          · simp
          · exact Nat.le_refl _
    have h2 := key (scans k) results
    apply Prod.Lex.left
    omega

/-- `CrawlerClient._extract_with_scroll`: run the loop from an empty result
list, counter 0 and the first scan, then return `results[:limit]`. -/
def extract_with_scroll (scans : Nat → List RawItem) (limit : Nat) : List RawItem :=
  (scrollGo scans limit [] 0 0).1.take limit

/-- Outcome of the next-button step of `_extract_with_pagination` (lines
209-221): the control was found and visible and the click plus load
succeeded, or it was absent or not visible, or an exception was raised while
finding, clicking or waiting. -/
inductive NextOutcome where
  | ok
  | notFound
  | clickError
deriving DecidableEq

/-- The `while` loop of `_extract_with_pagination`.  `scans k` is the list
of item dictionaries extracted on the k-th visited page and `next k` is what
the next-button step does there.  The loop body has no stagnation counter,
so a run in which the next step always succeeds and nothing new appears
never stops; `fuel` counts remaining loop iterations and `none` means the
iteration budget was exhausted before the loop terminated. -/
def pagGo (scans : Nat → List RawItem) (next : Nat → NextOutcome) (limit : Nat) :
    Nat → List RawItem → Nat → Option (List RawItem)
  | 0, _, _ => none
  | fuel + 1, results, k =>
    if results.length < limit then
      let results' := addItems limit results (scans k)
      if limit ≤ results'.length then some results'
      else
        match next k with
        | NextOutcome.ok => pagGo scans next limit fuel results' (k + 1)
        | _ => some results'
    else some results

/-- `CrawlerClient._extract_with_pagination`: run the loop from an empty
result list and return `results[:limit]`. -/
def extract_with_pagination (scans : Nat → List RawItem) (next : Nat → NextOutcome)
    (limit : Nat) (fuel : Nat) : Option (List RawItem) :=
  (pagGo scans next limit fuel [] 0).map (fun r => r.take limit)

/-- Browser behaviour during `login_to_site`: whether each awaited step of
the linear sequence raises, and the page URL observed after the submit. -/
structure LoginEnv where
  gotoOk : Bool
  fillUserOk : Bool
  fillPassOk : Bool
  clickOk : Bool
  waitOk : Bool
  finalUrl : String

/-- The body of the `try` block of `login_to_site`: navigate, fill the two
fields, click, wait, then read `page.url`; the first failing step raises
and skips the remaining steps. -/
def loginAttempt (env : LoginEnv) : Except Unit String :=
  if env.gotoOk then
    if env.fillUserOk then
      if env.fillPassOk then
        if env.clickOk then
          if env.waitOk then Except.ok env.finalUrl
          else Except.error ()
        else Except.error ()
      else Except.error ()
    else Except.error ()
  else Except.error ()

/-- `CrawlerClient.login_to_site`: success is `current_url != url`; any
exception in the sequence is caught and yields `False`. -/
def login_to_site (env : LoginEnv) (url : String) : Bool :=
  match loginAttempt env with
  | Except.ok current => current != url
  | Except.error _ => false

/-- The canonical novel record produced by `normalize_novel_data`. -/
structure Entity where
  title : String
  author : String
  description : String
  platform : String
  url : String
  keywords : List String
deriving DecidableEq

/-- `raw_data.get(key, "")` followed by use as a string.  In every call site
covered here the values stored at these keys are strings. -/
def getStrD (raw : RawItem) (key : String) : String :=
  match raw.lookup key with
  | some (Value.str s) => s
  | _ => ""

/-- The string-coercion step of `_extract_keywords`: a comma-joined string
is split and each part stripped; a list is used as is. -/
def keywordsBase : Value → List String
  | Value.str s => (pySplit "," s).map pyStrip
  | Value.list l => l

/-- `BaseCrawler._extract_keywords`: take `raw_data.get("keywords", [])`,
split a comma-joined string and strip each part, drop falsy entries, then
`list(set(...))`.  The Python set iteration order is unspecified, so the set
conversion is modelled by `List.dedup`; properties proved about the keyword
list are order-independent. -/
def extract_keywords (raw : RawItem) : List String :=
  ((keywordsBase ((raw.lookup "keywords").getD (Value.list []))).filter
    (fun k => k ≠ "")).dedup

/-- `BaseCrawler.normalize_novel_data` for a crawler named `platform`. -/
def normalize_novel_data (platform : String) (raw : RawItem) : Entity :=
  { title := pyStrip (getStrD raw "title")
    author := pyStrip (getStrD raw "author")
    description := pyStrip (getStrD raw "description")
    platform := platform
    url := pyStrip (getStrD raw "url")
    keywords := extract_keywords raw }

/-- The `(title, author)` key of `deduplicate_novels`:
`novel.get(k, "").lower().strip()` for both components. -/
def dedupKey (e : Entity) : String × String :=
  (pyStrip (pyLower e.title), pyStrip (pyLower e.author))

/-- The loop of `deduplicate_novels`: `seen` is the set of keys already
added and `acc` the accumulated `unique_novels` list.  An entity is kept
only when its key is not in `seen` and both key components are truthy. -/
def dedupGo : List Entity → List (String × String) → List Entity → List Entity
  | [], _, acc => acc
  | n :: rest, seen, acc =>
    if dedupKey n ∉ seen ∧ (dedupKey n).1 ≠ "" ∧ (dedupKey n).2 ≠ "" then
      dedupGo rest (dedupKey n :: seen) (acc ++ [n])
    else
      dedupGo rest seen acc

/-- `deduplicate_novels` from `utils.py`. -/
def deduplicate_novels (novels : List Entity) : List Entity :=
  dedupGo novels [] []

/-- Browser behaviour for a detail-page visit: whether `create_page` raises
(the only awaited call outside the `try` of `extract_detail_page`), whether
`page.goto(url)` raises, and the rendered markup per URL after the optional
info-tab click. -/
structure PageEnv where
  createPageOk : Bool
  gotoOk : String → Bool
  content : String → Element

/-- The field loop of `extract_detail_page` (lines 390-391): fields are
extracted one by one into `result`; the first field whose extraction raises
aborts the loop, the exception is caught by the enclosing `except`, and the
incomplete `result` built so far is returned. -/
def extractFieldsAcc (css : CssEngine) (xeng : XPathEngine) (el : Element) :
    List (String × String) → List (String × Value) → List (String × Value)
  | [], acc => acc
  | (f, s) :: rest, acc =>
    match extract_field css xeng el s with
    | Except.ok v => extractFieldsAcc css xeng el rest (acc ++ [(f, v)])
    | Except.error _ => acc

/-- `CrawlerClient.extract_detail_page`.  `create_page` runs before the
`try`, so its failure propagates (`Except.error`).  Inside the `try`, a
`goto` failure (and any extraction failure) is caught by the
`except Exception` handler and the dictionary built so far — empty when the
navigation itself failed — is returned.  The optional tab click has its own
inner try/except and only influences which markup `content` reports. -/
def extract_detail_page (env : PageEnv) (css : CssEngine) (xeng : XPathEngine)
    (url : String) (fieldSelectors : List (String × String)) :
    Except Unit (List (String × Value)) :=
  if env.createPageOk then
    Except.ok
      (if env.gotoOk url then
        extractFieldsAcc css xeng (env.content url) fieldSelectors []
      else [])
  else Except.error ()

/-- Relative-to-absolute URL conversion in `fetch_detail` (kakao.py lines
123-124). -/
def kakaoAbs (u : String) : String :=
  if pyStartsWith "/" u then "https://page.kakao.com" ++ u else u

/-- Keyword merging in `fetch_detail` (kakao.py lines 144-154): coerce a
comma string to a stripped non-empty list, then keep only the stripped
keywords that start with `#`. -/
def kakaoKeywords (kw : Value) : List String :=
  let l : List String :=
    match kw with
    | Value.str s => ((pySplit "," s).map pyStrip).filter (fun k => k ≠ "")
    | Value.list l => l
  (l.filter (fun k => pyStartsWith "#" (pyStrip k))).map pyStrip

/-- Genre handling in `fetch_detail` (kakao.py lines 156-170): a truthy
string genre is appended to the keywords; a non-empty list genre has its
stripped non-empty members appended. -/
def kakaoGenreKeywords (genre : Value) (kws : List String) : List String :=
  match genre with
  | Value.str g => if g ≠ "" then kws ++ [pyStrip g] else kws
  | Value.list gl =>
    if gl.isEmpty then kws
    else kws ++ (gl.filter (fun g => pyStrip g ≠ "")).map pyStrip

/-- The `fetch_detail` closure of `KakaoPageCrawler.crawl_all_novels`
(lines 116-175).  A falsy basic `url` yields `None` before any navigation.
The detail fetch itself runs inside `try/except`: an exception escaping
`extract_detail_page` (page creation failure) is caught, logged with the
URL, and turns the item into `None`; otherwise the detail dictionary —
possibly empty — is merged with the basic item and normalized with platform
name `kakao_page`.  The list selectors of this crawler produce a string
`url` field; a non-string there cannot arise in this flow. -/
def fetch_detail (env : PageEnv) (css : CssEngine) (xeng : XPathEngine)
    (detailSelectors : List (String × String)) (basic : RawItem) : Option Entity :=
  match basic.lookup "url" with
  | some (Value.str u) =>
    if u = "" then none
    else
      let detailUrl := kakaoAbs u
      match extract_detail_page env css xeng detailUrl detailSelectors with
      | Except.error _ => none
      | Except.ok detail =>
        let kws :=
          kakaoKeywords ((List.lookup "keywords" detail).getD (Value.list []))
        let genre := (List.lookup "genre" detail).getD (Value.str "")
        let kws := kakaoGenreKeywords genre kws
        some (normalize_novel_data "kakao_page"
          [("title", Value.str (getStrD basic "title")),
           ("author", Value.str (getStrD detail "author")),
           ("description", Value.str (getStrD detail "description")),
           ("url", Value.str detailUrl),
           ("keywords", Value.list kws),
           ("platform", Value.str "kakao_page")])
  | _ => none

/-- The batched detail pass of `crawl_all_novels` (kakao.py lines 177-183):
slices of `batch_size = 5` are gathered in order and the non-`None` results
of each batch are appended to the output. -/
def crawl_detail_batches (f : RawItem → Option Entity) (basics : List RawItem) :
    List Entity :=
  match basics with
  | [] => []
  | b :: rest =>
    (((b :: rest).take 5).map f).filterMap id
      ++ crawl_detail_batches f ((b :: rest).drop 5)
termination_by basics.length
decreasing_by
  simp [List.length_drop]
  omega

/-- Concatenation of the scan contents from index `k` for `m` scans; the
stream of items a pagination loop has seen after consuming those scans. -/
def catScans (scans : Nat → List RawItem) : Nat → Nat → List RawItem
  | _, 0 => []
  | k, m + 1 => scans k ++ catScans scans (k + 1) m

/-- The result-list invariant of both pagination loops: pairwise distinct
`url` values, and a truthy `url` value on every collected item. -/
def UrlInv (l : List RawItem) : Prop :=
  l.Pairwise (fun a b => a.lookup "url" ≠ b.lookup "url") ∧
  ∀ r ∈ l, truthyO (r.lookup "url") = true

/-! Concrete sample data used by the closed witness theorems. -/

def elW : Element := { tag := "div", attrs := [], textStrip := "root" }

def elA : Element :=
  { tag := "span", attrs := [("href", "/content/1")], textStrip := "tagA" }

def elB : Element := { tag := "span", attrs := [], textStrip := "tagB" }

def cssW : CssEngine :=
  ⟨fun _ sel => if sel = "span.tag" then [elA, elB] else []⟩

def xengW : XPathEngine :=
  ⟨fun _ e =>
    if e = ".//span" then some [XNode.strNode " a ", XNode.strNode "b"]
    else some []⟩

def badXeng : XPathEngine := ⟨fun _ _ => none⟩

def itemA : RawItem := [("title", Value.str "T1"), ("url", Value.str "/content/1")]

def itemB : RawItem := [("title", Value.str "T2"), ("url", Value.str "/content/2")]

def itemNoUrl : RawItem := [("title", Value.str "T3"), ("url", Value.str "")]

def scansE : Nat → List RawItem := fun _ => []

def scansA : Nat → List RawItem := fun _ => [itemA]

def scansW : Nat → List RawItem := fun k =>
  if k = 0 then [itemA, itemNoUrl] else if k = 1 then [itemA, itemB] else []

def nextW : Nat → NextOutcome := fun _ => NextOutcome.notFound

def loginEnvW : LoginEnv :=
  { gotoOk := true, fillUserOk := true, fillPassOk := true, clickOk := true,
    waitOk := true, finalUrl := "https://site.example/home" }

def rawC8 : RawItem :=
  [("title", Value.str "작품 제목"), ("author", Value.str "작가"),
   ("description", Value.str "설명"), ("url", Value.str "https://example.com/1"),
   ("keywords", Value.str "로맨스, 판타지, 로맨스")]

def entC9 : Entity :=
  { title := "A", author := "", description := "d", platform := "p",
    url := "https://example.com/a", keywords := [] }

def entB1 : Entity :=
  { title := "Alpha", author := "Kim", description := "d1", platform := "p",
    url := "https://example.com/1", keywords := [] }

def entB2 : Entity :=
  { title := " alpha ", author := "KIM", description := "d2", platform := "p",
    url := "https://example.com/2", keywords := [] }

def entB3 : Entity :=
  { title := "Beta", author := "Lee", description := "d3", platform := "p",
    url := "https://example.com/3", keywords := [] }

def pageEnvNavFail : PageEnv :=
  { createPageOk := true, gotoOk := fun _ => false, content := fun _ => elW }

def pageEnvNoPage : PageEnv :=
  { createPageOk := false, gotoOk := fun _ => true, content := fun _ => elW }

def kakaoDetailSelectors : List (String × String) :=
  [("genre", "span.align-middle"), ("author", "span.opacity-70"),
   ("description", "span.whitespace-pre-wrap"),
   ("keywords", "span.font-small2-bold[multiple]")]

def basicK : RawItem :=
  [("title", Value.str "미친개는 길들여야 제맛"), ("url", Value.str "/content/123")]

/-! Helper lemmas about the shared per-item accumulation loop. -/

theorem addItems_stop (limit : Nat) (acc xs : List RawItem)
    (h : limit ≤ acc.length) : addItems limit acc xs = acc := by
  cases xs with
  | nil => rfl
  | cons d rest => rw [addItems, if_pos h]

theorem addItems_le_length (limit : Nat) (xs acc : List RawItem) :
    acc.length ≤ (addItems limit acc xs).length := by
  induction xs generalizing acc with
  | nil => exact Nat.le_refl _
  | cons d rest ih =>
    rw [addItems]
    split
    · exact Nat.le_refl _
    · refine Nat.le_trans ?_ (ih _)
      split
      · simp
      · exact Nat.le_refl _

theorem addItems_assoc (limit : Nat) (xs : List RawItem) :
    ∀ (acc ys : List RawItem),
      addItems limit (addItems limit acc xs) ys = addItems limit acc (xs ++ ys) := by
  induction xs with
  | nil => intro acc ys; rfl
  | cons d rest ih =>
    intro acc ys
    by_cases h : limit ≤ acc.length
    · rw [addItems_stop limit acc (d :: rest) h, addItems_stop limit acc ys h,
        addItems_stop limit acc ((d :: rest) ++ ys) h]
    · rw [List.cons_append, addItems, if_neg h, addItems, if_neg h]
      exact ih _ _

theorem addItems_inv (limit : Nat) (xs : List RawItem) :
    ∀ acc : List RawItem, UrlInv acc → UrlInv (addItems limit acc xs) := by
  induction xs with
  | nil => intro acc h; exact h
  | cons d rest ih =>
    intro acc h
    rw [addItems]
    split
    · exact h
    · apply ih
      split
      case isTrue hk =>
        rw [Bool.and_eq_true] at hk
        obtain ⟨hkt, hka⟩ := hk
        have hnone : ∀ r ∈ acc, ¬ (r.lookup "url" = d.lookup "url") := by
          intro r hr
          by_contra hc
          have hany : acc.any (fun r => decide (r.lookup "url" = d.lookup "url")) = true :=
            List.any_eq_true.mpr ⟨r, hr, by simpa using hc⟩
          rw [hany] at hka
          simp at hka
        obtain ⟨hp, ht⟩ := h
        constructor
        · rw [List.pairwise_append]
          refine ⟨hp, List.pairwise_singleton _ _, ?_⟩
          intro a ha b hb
          rw [List.mem_singleton] at hb
          subst hb
          exact hnone a ha
        · intro r hr
          rw [List.mem_append, List.mem_singleton] at hr
          cases hr with
          | inl hr => exact ht r hr
          | inr hr => subst hr; exact hkt
      case isFalse => exact h

theorem urlInv_nil : UrlInv [] := ⟨List.Pairwise.nil, by intro r hr; cases hr⟩

theorem urlInv_take (l : List RawItem) (n : Nat) (h : UrlInv l) :
    UrlInv (l.take n) := by
  obtain ⟨hp, ht⟩ := h
  exact ⟨hp.sublist (List.take_sublist n l),
    fun r hr => ht r ((List.take_sublist n l).subset hr)⟩

/-! Helper lemmas about the infinite-scroll loop. -/

theorem scrollGo_decomp (scans : Nat → List RawItem) (limit : Nat) :
    ∀ (results : List RawItem) (noNew k : Nat),
      ∃ m, scrollGo scans limit results noNew k
        = (addItems limit results (catScans scans k m), k + m) := by
  intro results noNew k
  induction results, noNew, k using scrollGo.induct scans limit with
  | case1 results noNew k h hg hn =>
    refine ⟨1, ?_⟩
    rw [scrollGo, dif_pos h, dif_pos hg, dif_pos hn]
    simp [catScans]
  | case2 results noNew k h hg hn ih =>
    obtain ⟨m, hm⟩ := ih
    refine ⟨m + 1, ?_⟩
    rw [scrollGo, dif_pos h, dif_pos hg, dif_neg hn, hm]
    rw [show catScans scans k (m + 1) = scans k ++ catScans scans (k + 1) m from rfl]
    rw [← addItems_assoc]
    refine Prod.ext rfl ?_
    simp
    omega
  | case3 results noNew k h hg ih =>
    obtain ⟨m, hm⟩ := ih
    refine ⟨m + 1, ?_⟩
    rw [scrollGo, dif_pos h, dif_neg hg, hm]
    rw [show catScans scans k (m + 1) = scans k ++ catScans scans (k + 1) m from rfl]
    rw [← addItems_assoc]
    refine Prod.ext rfl ?_
    simp
    omega
  | case4 results noNew k h =>
    refine ⟨0, ?_⟩
    rw [scrollGo, dif_neg h]
    rfl

theorem scrollGo_stagnant (scans : Nat → List RawItem) (limit : Nat)
    (results : List RawItem) :
    ∀ (d noNew k : Nat), noNew < 3 → noNew + d = 3 →
      (∀ j, k ≤ j → ∀ acc : List RawItem, addItems limit acc (scans j) = acc) →
      results.length < limit →
      scrollGo scans limit results noNew k = (results, k + d) := by
  intro d
  induction d with
  | zero => intro noNew k h1 h2 _ _; omega
  | succ d ih =>
    intro noNew k h1 h2 hs hl
    have hadd : addItems limit results (scans k) = results :=
      hs k (Nat.le_refl k) results
    rw [scrollGo, dif_pos hl, hadd, dif_pos rfl]
    by_cases h3 : 3 ≤ noNew + 1
    · have hd : d = 0 := by omega
      rw [dif_pos h3, hd]
    · rw [dif_neg h3]
      have hrec := ih (noNew + 1) (k + 1) (by omega) (by omega)
        (fun j hj acc => hs j (by omega) acc) hl
      rw [hrec]
      refine Prod.ext rfl ?_
      simp
      omega

theorem scrollGo_stagnant_step (scans : Nat → List RawItem) (limit : Nat)
    (results : List RawItem) (k : Nat)
    (hl : results.length < limit)
    (hadd : addItems limit results (scans k) = results) :
    scrollGo scans limit results 0 k = scrollGo scans limit results 1 (k + 1) := by
  rw [scrollGo, dif_pos hl, hadd, dif_pos rfl, dif_neg (by omega : ¬ 3 ≤ 0 + 1)]

theorem scrollGo_growth_step (scans : Nat → List RawItem) (limit : Nat)
    (results : List RawItem) (noNew k : Nat)
    (hl : results.length < limit)
    (hadd : (addItems limit results (scans k)).length ≠ results.length) :
    scrollGo scans limit results noNew k
      = scrollGo scans limit (addItems limit results (scans k)) 0 (k + 1) := by
  rw [scrollGo, dif_pos hl, dif_neg hadd]

/-! Helper lemmas about the click-pagination loop. -/

theorem pagGo_decomp (scans : Nat → List RawItem) (next : Nat → NextOutcome)
    (limit : Nat) :
    ∀ (fuel : Nat) (results : List RawItem) (k : Nat) (r : List RawItem),
      pagGo scans next limit fuel results k = some r →
      ∃ m, r = addItems limit results (catScans scans k m) := by
  intro fuel
  induction fuel with
  | zero =>
    intro results k r h
    exact absurd h (by rw [pagGo]; simp)
  | succ f ih =>
    intro results k r h
    rw [pagGo] at h
    by_cases h1 : results.length < limit
    · rw [if_pos h1] at h
      by_cases h2 : limit ≤ (addItems limit results (scans k)).length
      · rw [if_pos h2] at h
        refine ⟨1, ?_⟩
        rw [show catScans scans k 1 = scans k ++ catScans scans (k + 1) 0 from rfl]
        simp only [catScans, List.append_nil]
        exact (Option.some_injective _ h).symm
      · rw [if_neg h2] at h
        cases hnx : next k with
        | ok =>
          rw [hnx] at h
          obtain ⟨m, hm⟩ := ih _ _ _ h
          refine ⟨m + 1, ?_⟩
          rw [show catScans scans k (m + 1) = scans k ++ catScans scans (k + 1) m from rfl]
          rw [← addItems_assoc]
          exact hm
        | notFound =>
          rw [hnx] at h
          refine ⟨1, ?_⟩
          simp only [catScans, List.append_nil]
          exact (Option.some_injective _ h).symm
        | clickError =>
          rw [hnx] at h
          refine ⟨1, ?_⟩
          simp only [catScans, List.append_nil]
          exact (Option.some_injective _ h).symm
    · rw [if_neg h1] at h
      refine ⟨0, ?_⟩
      simp only [catScans]
      exact (Option.some_injective _ h).symm

/-! Helper lemmas about `deduplicate_novels`. -/

theorem dedupGo_acc (rest : List Entity) :
    ∀ (seen : List (String × String)) (acc : List Entity),
      dedupGo rest seen acc = acc ++ dedupGo rest seen [] := by
  induction rest with
  | nil => intro seen acc; simp [dedupGo]
  | cons n rest ih =>
    intro seen acc
    rw [dedupGo, dedupGo]
    split
    · rw [ih _ (acc ++ [n]), ih _ ([] ++ [n])]
      simp
    · exact ih _ acc

theorem dedupGo_sublist (rest : List Entity) :
    ∀ seen, (dedupGo rest seen []).Sublist rest := by
  induction rest with
  | nil => intro seen; simp [dedupGo]
  | cons n rest ih =>
    intro seen
    rw [dedupGo]
    split
    · rw [dedupGo_acc]
      simp only [List.nil_append, List.singleton_append]
      exact (ih _).cons₂ n
    · exact (ih _).cons n

theorem dedupGo_mem (rest : List Entity) :
    ∀ (seen : List (String × String)) (e : Entity), e ∈ dedupGo rest seen [] →
      (dedupKey e).1 ≠ "" ∧ (dedupKey e).2 ≠ "" ∧ dedupKey e ∉ seen := by
  induction rest with
  | nil => intro seen e he; simp [dedupGo] at he
  | cons n rest ih =>
    intro seen e he
    rw [dedupGo] at he
    by_cases hc : dedupKey n ∉ seen ∧ (dedupKey n).1 ≠ "" ∧ (dedupKey n).2 ≠ ""
    · rw [if_pos hc, dedupGo_acc] at he
      simp only [List.nil_append, List.singleton_append, List.mem_cons] at he
      cases he with
      | inl he => subst he; exact ⟨hc.2.1, hc.2.2, hc.1⟩
      | inr he =>
        have h2 := ih _ _ he
        exact ⟨h2.1, h2.2.1, fun hmem => h2.2.2 (List.mem_cons_of_mem _ hmem)⟩
    · rw [if_neg hc] at he
      exact ih _ _ he

theorem dedupGo_pairwise (rest : List Entity) :
    ∀ seen, (dedupGo rest seen []).Pairwise (fun a b => dedupKey a ≠ dedupKey b) := by
  induction rest with
  | nil => intro seen; simp [dedupGo]
  | cons n rest ih =>
    intro seen
    rw [dedupGo]
    split
    case isTrue hc =>
      rw [dedupGo_acc]
      simp only [List.nil_append, List.singleton_append]
      refine List.Pairwise.cons ?_ (ih _)
      intro b hb heq
      have h2 := dedupGo_mem rest _ b hb
      exact h2.2.2 (heq ▸ List.mem_cons_self _ _)
    case isFalse => exact ih _

theorem dedupGo_first (p : List Entity) :
    ∀ (seen : List (String × String)) (n : Entity) (q : List Entity),
      dedupKey n ∉ seen → (dedupKey n).1 ≠ "" → (dedupKey n).2 ≠ "" →
      (∀ x ∈ p, dedupKey x ≠ dedupKey n) →
      n ∈ dedupGo (p ++ n :: q) seen [] := by
  induction p with
  | nil =>
    intro seen n q h1 h2 h3 _
    rw [List.nil_append, dedupGo, if_pos ⟨h1, h2, h3⟩, dedupGo_acc]
    simp
  | cons x p ih =>
    intro seen n q h1 h2 h3 hp
    rw [List.cons_append, dedupGo]
    split
    case isTrue hc =>
      rw [dedupGo_acc]
      have hnx : dedupKey n ∉ (dedupKey x :: seen) := by
        intro hmem
        rcases List.mem_cons.mp hmem with he | he
        · exact hp x (List.mem_cons_self _ _) he.symm
        · exact h1 he
      exact List.mem_append_right _
        (ih _ n q hnx h2 h3 (fun y hy => hp y (List.mem_cons_of_mem _ hy)))
    case isFalse =>
      exact ih _ n q h1 h2 h3 (fun y hy => hp y (List.mem_cons_of_mem _ hy))

/-! Helper lemmas about the batched detail pass. -/

theorem crawl_batches_eq_filterMap (f : RawItem → Option Entity) :
    ∀ basics : List RawItem, crawl_detail_batches f basics = basics.filterMap f := by
  intro basics
  induction basics using crawl_detail_batches.induct f with
  | case1 =>
    rw [crawl_detail_batches]
    rfl
  | case2 b rest ih =>
    rw [crawl_detail_batches, ih, List.filterMap_map]
    have hcomp : (id ∘ f) = f := rfl
    rw [hcomp, ← List.filterMap_append, List.take_append_drop]

/-! Concrete evaluations used by witness theorems (the scroll loop is
defined by well-founded recursion, so these are proved by rewriting with
its unfolding equation rather than by kernel reduction). -/

theorem scroll_scansA_eval : extract_with_scroll scansA 1 = [itemA] := by
  have hg : (addItems 1 [] (scansA 0)).length ≠ ([] : List RawItem).length := by
    decide
  have h0 : scrollGo scansA 1 [] 0 0
      = scrollGo scansA 1 (addItems 1 [] (scansA 0)) 0 1 :=
    scrollGo_growth_step scansA 1 [] 0 0 (by decide) hg
  have h1 : scrollGo scansA 1 (addItems 1 [] (scansA 0)) 0 1
      = (addItems 1 [] (scansA 0), 1) := by
    rw [scrollGo, dif_neg (by decide : ¬ (addItems 1 [] (scansA 0)).length < 1)]
  rw [extract_with_scroll, h0, h1]
  decide

/-! The claims. -/

/-- C1: for a field selector carrying the `[multiple]` modifier, resolution
returns the full match list — one trimmed text value per matched element,
hence a list of length N for N matches and the empty list for zero matches
— with no error (for the XPath form, whenever the expression evaluates),
and with no empty strings when every matched element has text.  The first
conjunct links `_extract_field` to `_extract_by_xpath` on `xpath:`
selectors; the second settles the CSS form; the third the XPath form. -/
theorem C1_multiple_selector (css : CssEngine) (xeng : XPathEngine) (el : Element) :
    (∀ sel : String, pyStartsWith "xpath:" sel = true →
      extract_field css xeng el sel = extract_by_xpath xeng el (pyDrop 6 sel))
    ∧ (∀ sel : String, pyStartsWith "xpath:" sel = false → hasMultiple sel = true →
      extract_field css xeng el sel
        = Except.ok (Value.list
            ((css.select el (pyReplace "[multiple]" "" sel)).map
              (fun e => e.textStrip)))
      ∧ ((css.select el (pyReplace "[multiple]" "" sel)).map
            (fun e => e.textStrip)).length
          = (css.select el (pyReplace "[multiple]" "" sel)).length
      ∧ ((∀ e ∈ css.select el (pyReplace "[multiple]" "" sel), e.textStrip ≠ "") →
          "" ∉ (css.select el (pyReplace "[multiple]" "" sel)).map
            (fun e => e.textStrip)))
    ∧ (∀ (expr : String) (nodes : List XNode), hasMultiple expr = true →
      xeng.eval el (pyReplace "[multiple]" "" expr) = some nodes →
      extract_by_xpath xeng el expr = Except.ok (Value.list (multiTexts nodes))
      ∧ (multiTexts nodes).length = nodes.length
      ∧ (nodes = [] → multiTexts nodes = [])
      ∧ ((∀ n ∈ nodes, nodeHasText n = true) → "" ∉ multiTexts nodes)) := by
  refine ⟨?_, ?_, ?_⟩
  · intro sel h
    rw [extract_field, if_pos h]
  · intro sel h1 h2
    have h1' : ¬ (pyStartsWith "xpath:" sel = true) := by simp [h1]
    rw [extract_field, if_neg h1', if_pos h2]
    refine ⟨rfl, by simp, ?_⟩
    intro hne hmem
    rw [List.mem_map] at hmem
    obtain ⟨e, he, heq⟩ := hmem
    exact hne e he heq
  · intro expr nodes h1 h2
    rw [extract_by_xpath, if_pos h1, h2]
    refine ⟨rfl, ?_, ?_, ?_⟩
    · cases nodes with
      | nil => rfl
      | cons hd tl => cases hd <;> simp [multiTexts]
    · intro h
      subst h
      rfl
    · intro hall hmem
      cases nodes with
      | nil => simp [multiTexts] at hmem
      | cons hd tl =>
        cases hd with
        | strNode s =>
          simp only [multiTexts, List.mem_map] at hmem
          obtain ⟨n, hn, hq⟩ := hmem
          have hh := hall n hn
          cases n with
          | strNode s2 =>
            simp only [nodeHasText, bne_iff_ne, ne_eq] at hh
            simp only [pyStr] at hq
            exact hh hq
          | elemNode e =>
            simp only [nodeHasText, Bool.and_eq_true, bne_iff_ne, ne_eq] at hh
            simp only [pyStr] at hq
            exact hh.2 hq
        | elemNode e0 =>
          simp only [multiTexts, List.mem_map] at hmem
          obtain ⟨n, hn, hq⟩ := hmem
          have hh := hall n hn
          cases n with
          | strNode s2 =>
            simp only [nodeHasText, bne_iff_ne, ne_eq] at hh
            simp only [] at hq
            exact hh hq
          | elemNode e =>
            simp only [nodeHasText, Bool.and_eq_true, bne_iff_ne, ne_eq] at hh
            simp only [] at hq
            exact hh.1 hq

/-- Witness for C1: the three conjuncts applied to the concrete engines
`cssW`/`xengW`, hypotheses discharged by evaluation. -/
theorem C1_multiple_selector_witness :
    (pyStartsWith "xpath:" "xpath:.//span" = true
      ∧ extract_field cssW xengW elW "xpath:.//span"
          = extract_by_xpath xengW elW (pyDrop 6 "xpath:.//span"))
    ∧ (pyStartsWith "xpath:" "span.tag[multiple]" = false
      ∧ hasMultiple "span.tag[multiple]" = true
      ∧ extract_field cssW xengW elW "span.tag[multiple]"
          = Except.ok (Value.list
              ((cssW.select elW (pyReplace "[multiple]" "" "span.tag[multiple]")).map
                (fun e => e.textStrip))))
    ∧ (hasMultiple ".//span[multiple]" = true
      ∧ xengW.eval elW (pyReplace "[multiple]" "" ".//span[multiple]")
          = some [XNode.strNode " a ", XNode.strNode "b"]
      ∧ extract_by_xpath xengW elW ".//span[multiple]"
          = Except.ok (Value.list
              (multiTexts [XNode.strNode " a ", XNode.strNode "b"]))) := by
  refine ⟨⟨by decide, (C1_multiple_selector cssW xengW elW).1 "xpath:.//span" (by decide)⟩,
    ⟨by decide, by decide,
      ((C1_multiple_selector cssW xengW elW).2.1 "span.tag[multiple]"
        (by decide) (by decide)).1⟩,
    ⟨by decide, by decide,
      ((C1_multiple_selector cssW xengW elW).2.2 ".//span[multiple]"
        [XNode.strNode " a ", XNode.strNode "b"] (by decide) (by decide)).1⟩⟩

/-- C2: the infinite-scroll loop terminates after at most 3 consecutive
non-growing scans even when the requested limit is never reached (if no
scan from index k on adds anything, the loop performs exactly `3 - noNew`
further scans and stops); a single non-growing scan does not terminate the
loop (it continues with the counter at 1); and any scan that grows the
result list resets the stagnation counter to 0. -/
theorem C2_scroll_stagnation (scans : Nat → List RawItem) (limit : Nat) :
    (∀ (results : List RawItem) (noNew k : Nat),
      (∀ j, k ≤ j → ∀ acc : List RawItem, addItems limit acc (scans j) = acc) →
      noNew < 3 → results.length < limit →
      scrollGo scans limit results noNew k = (results, k + (3 - noNew)))
    ∧ (∀ (results : List RawItem) (k : Nat),
      results.length < limit →
      addItems limit results (scans k) = results →
      scrollGo scans limit results 0 k = scrollGo scans limit results 1 (k + 1))
    ∧ (∀ (results : List RawItem) (noNew k : Nat),
      results.length < limit →
      (addItems limit results (scans k)).length ≠ results.length →
      scrollGo scans limit results noNew k
        = scrollGo scans limit (addItems limit results (scans k)) 0 (k + 1)) := by
  refine ⟨?_, ?_, ?_⟩
  · intro results noNew k hs h1 hl
    exact scrollGo_stagnant scans limit results (3 - noNew) noNew k h1 (by omega) hs hl
  · intro results k hl hadd
    exact scrollGo_stagnant_step scans limit results k hl hadd
  · intro results noNew k hl hadd
    exact scrollGo_growth_step scans limit results noNew k hl hadd

/-- Witness for C2: the stagnation bound on an always-empty scan stream,
the single-no-growth step, and the counter reset on a growing scan. -/
theorem C2_scroll_stagnation_witness :
    ((∀ j, 0 ≤ j → ∀ acc : List RawItem, addItems 5 acc (scansE j) = acc)
      ∧ 0 < 3 ∧ ([] : List RawItem).length < 5
      ∧ scrollGo scansE 5 [] 0 0 = ([], 0 + (3 - 0)))
    ∧ (addItems 5 [] (scansE 0) = []
      ∧ scrollGo scansE 5 [] 0 0 = scrollGo scansE 5 [] 1 (0 + 1))
    ∧ ((addItems 5 [] (scansA 0)).length ≠ ([] : List RawItem).length
      ∧ scrollGo scansA 5 [] 0 0
          = scrollGo scansA 5 (addItems 5 [] (scansA 0)) 0 (0 + 1)) := by
  refine ⟨⟨fun j hj acc => rfl, by decide, by decide,
      (C2_scroll_stagnation scansE 5).1 [] 0 0 (fun j hj acc => rfl)
        (by decide) (by decide)⟩,
    ⟨rfl, (C2_scroll_stagnation scansE 5).2.1 [] 0 (by decide) rfl⟩,
    ⟨by decide, (C2_scroll_stagnation scansA 5).2.2 [] 0 0 (by decide) (by decide)⟩⟩

/-- C3: for each pagination strategy the returned list never exceeds the
requested limit, carries pairwise distinct url values, and equals a single
eager first-discovery deduplication pass over the concatenation of the
scans the loop consumed (truncated to the limit) — so elements appear in
the order their URL was first discovered and re-scanning already-seen items
never adds entries. -/
theorem C3_result_invariants (scans : Nat → List RawItem)
    (next : Nat → NextOutcome) (limit fuel : Nat) :
    ((extract_with_scroll scans limit).length ≤ limit
      ∧ (extract_with_scroll scans limit).Pairwise
          (fun a b => a.lookup "url" ≠ b.lookup "url")
      ∧ ∃ m, extract_with_scroll scans limit
          = (addItems limit [] (catScans scans 0 m)).take limit)
    ∧ (∀ res, extract_with_pagination scans next limit fuel = some res →
        res.length ≤ limit
        ∧ res.Pairwise (fun a b => a.lookup "url" ≠ b.lookup "url")
        ∧ ∃ m, res = (addItems limit [] (catScans scans 0 m)).take limit) := by
  constructor
  · obtain ⟨m, hm⟩ := scrollGo_decomp scans limit [] 0 0
    have hinv := addItems_inv limit (catScans scans 0 m) [] urlInv_nil
    have hscroll : extract_with_scroll scans limit
        = (addItems limit [] (catScans scans 0 m)).take limit := by
      rw [extract_with_scroll, hm]
    refine ⟨?_, ?_, ⟨m, hscroll⟩⟩
    · rw [hscroll]
      exact List.length_take_le _ _
    · rw [hscroll]
      exact (urlInv_take _ limit hinv).1
  · intro res hres
    rw [extract_with_pagination] at hres
    cases hp : pagGo scans next limit fuel [] 0 with
    | none => rw [hp] at hres; cases hres
    | some r0 =>
      rw [hp] at hres
      simp only [Option.map_some', Option.some.injEq] at hres
      obtain ⟨m, hm⟩ := pagGo_decomp scans next limit fuel [] 0 r0 hp
      have hinv := addItems_inv limit (catScans scans 0 m) [] urlInv_nil
      have hres2 : res = (addItems limit [] (catScans scans 0 m)).take limit := by
        rw [← hres, hm]
      refine ⟨?_, ?_, ⟨m, hres2⟩⟩
      · rw [hres2]
        exact List.length_take_le _ _
      · rw [hres2]
        exact (urlInv_take _ limit hinv).1

/-- Witness for C3: the pagination conjunct applied to a concrete one-page
run that collects exactly one item. -/
theorem C3_result_invariants_witness :
    extract_with_pagination scansA nextW 1 5 = some [itemA]
    ∧ ([itemA].length ≤ 1
      ∧ [itemA].Pairwise (fun a b => a.lookup "url" ≠ b.lookup "url")
      ∧ ∃ m, [itemA] = (addItems 1 [] (catScans scansA 0 m)).take 1) := by
  have heq : extract_with_pagination scansA nextW 1 5 = some [itemA] := by decide
  exact ⟨heq, (C3_result_invariants scansA nextW 1 5).2 [itemA] heq⟩

/-- C4: the click-pagination loop stops right after the current scan —
whatever the requested limit and the remaining iteration budget — as soon
as the next-button step does not succeed (control absent or not visible, or
the click/wait raised). -/
theorem C4_pagination_stops (scans : Nat → List RawItem)
    (next : Nat → NextOutcome) (limit : Nat) (results : List RawItem)
    (k fuel : Nat) (hf : 1 ≤ fuel) (hn : next k ≠ NextOutcome.ok) :
    pagGo scans next limit fuel results k
      = some (if limit ≤ results.length then results
              else addItems limit results (scans k)) := by
  obtain ⟨f, rfl⟩ : ∃ f, fuel = f + 1 := ⟨fuel - 1, by omega⟩
  rw [pagGo]
  by_cases h : results.length < limit
  · rw [if_pos h, if_neg (by omega : ¬ limit ≤ results.length)]
    by_cases h2 : limit ≤ (addItems limit results (scans k)).length
    · rw [if_pos h2]
    · rw [if_neg h2]
      cases hnx : next k with
      | ok => exact absurd hnx hn
      | notFound => rfl
      | clickError => rfl
  · rw [if_neg h, if_pos (by omega : limit ≤ results.length)]

/-- Witness for C4: a run whose next-button step reports the control as
absent stops after one scan. -/
theorem C4_pagination_stops_witness :
    1 ≤ 3 ∧ nextW 0 ≠ NextOutcome.ok
    ∧ pagGo scansA nextW 10 3 [] 0
        = some (if 10 ≤ ([] : List RawItem).length then ([] : List RawItem)
                else addItems 10 [] (scansA 0)) := by
  exact ⟨by decide, by decide,
    C4_pagination_stops scansA nextW 10 [] 0 3 (by decide) (by decide)⟩

/-- C5 (code-bug evidence): a malformed XPath expression carrying the
`[multiple]` modifier makes `_extract_field` raise — the multi-value branch
of `_extract_by_xpath` calls `tree.xpath` outside the try/except (lines
312-322), so the `XPathEvalError` propagates and aborts the whole item
extraction (the per-item field loops of the pagination strategies do not
catch it) — while the single-value branch of the same function catches the
same error and degrades to the empty string, as the spec describes for all
XPath forms. -/
theorem C5_malformed_xpath_multiple :
    extract_field cssW badXeng elW "xpath:///invalid[multiple]" = Except.error ()
    ∧ extract_field cssW badXeng elW "xpath:///invalid" = Except.ok (Value.str "")
    ∧ extract_by_xpath badXeng elW "///invalid[multiple]" = Except.error () := by
  exact ⟨rfl, rfl, rfl⟩

/-- C6: `login_to_site` returns true exactly when no step of the
navigate/fill/fill/click/wait sequence raised and the post-submit URL
differs from the login URL; any exception and any unchanged URL yield
false, and no exception escapes (the function is total with a Boolean
result). -/
theorem C6_login_url_change (env : LoginEnv) (url : String) :
    login_to_site env url = true ↔
      (env.gotoOk = true ∧ env.fillUserOk = true ∧ env.fillPassOk = true
        ∧ env.clickOk = true ∧ env.waitOk = true ∧ env.finalUrl ≠ url) := by
  cases env with
  | mk g fu fp c w f =>
    cases g <;> cases fu <;> cases fp <;> cases c <;> cases w <;>
      simp [login_to_site, loginAttempt, bne_iff_ne]

/-- C7 counterexample to the claim as stated: a navigation failure on the
detail page (goto raises) does not drop the item — `extract_detail_page`
catches the exception itself and returns an empty dictionary, so
`fetch_detail` returns an entity rather than none. -/
theorem C7_nav_failure_keeps_item :
    fetch_detail pageEnvNavFail cssW xengW kakaoDetailSelectors basicK ≠ none := by
  decide

/-- C7 amended: an exception escaping the detail fetch itself (page
creation failure, the only awaited call outside the try) drops the item
(none); an exception during navigation is caught inside
`extract_detail_page`, so the item is kept and enriched with empty
author/description/keywords; and the batched driver yields exactly the
non-none per-item results of every batch, in order — per-item failures
never abort the batch. -/
theorem C7_detail_failure_policy :
    (∀ (env : PageEnv) (css : CssEngine) (xeng : XPathEngine)
       (sels : List (String × String)) (basic : RawItem) (u : String),
       basic.lookup "url" = some (Value.str u) → u ≠ "" →
       env.createPageOk = false →
       fetch_detail env css xeng sels basic = none)
    ∧ (∀ (env : PageEnv) (css : CssEngine) (xeng : XPathEngine)
         (sels : List (String × String)) (basic : RawItem) (u : String),
         basic.lookup "url" = some (Value.str u) → u ≠ "" →
         env.createPageOk = true → env.gotoOk (kakaoAbs u) = false →
         ∃ e, fetch_detail env css xeng sels basic = some e
           ∧ e.author = "" ∧ e.description = "" ∧ e.keywords = [])
    ∧ (∀ (f : RawItem → Option Entity) (basics : List RawItem),
         crawl_detail_batches f basics = basics.filterMap f) := by
  refine ⟨?_, ?_, crawl_batches_eq_filterMap⟩
  · intro env css xeng sels basic u hu hue hc
    unfold fetch_detail
    rw [hu]
    simp only [if_neg hue]
    unfold extract_detail_page
    rw [hc]
    simp
  · intro env css xeng sels basic u hu hue hc hg
    unfold fetch_detail
    rw [hu]
    simp only [if_neg hue]
    unfold extract_detail_page
    rw [hc, hg]
    simp only [if_pos rfl, Bool.false_eq_true, if_false]
    exact ⟨_, rfl, rfl, rfl, rfl⟩

/-- Witness for C7 amended: the three conjuncts at a concrete basic item,
with a page-creation failure, a navigation failure, and a one-item batch. -/
theorem C7_detail_failure_policy_witness :
    (basicK.lookup "url" = some (Value.str "/content/123")
      ∧ ("/content/123" : String) ≠ ""
      ∧ pageEnvNoPage.createPageOk = false
      ∧ fetch_detail pageEnvNoPage cssW xengW kakaoDetailSelectors basicK = none)
    ∧ (pageEnvNavFail.createPageOk = true
      ∧ pageEnvNavFail.gotoOk (kakaoAbs "/content/123") = false
      ∧ ∃ e, fetch_detail pageEnvNavFail cssW xengW kakaoDetailSelectors basicK
            = some e
          ∧ e.author = "" ∧ e.description = "" ∧ e.keywords = [])
    ∧ crawl_detail_batches (fun _ => none) [basicK]
        = [basicK].filterMap (fun _ => none) := by
  refine ⟨⟨by decide, by decide, by decide,
      C7_detail_failure_policy.1 pageEnvNoPage cssW xengW kakaoDetailSelectors
        basicK "/content/123" (by decide) (by decide) (by decide)⟩,
    ⟨by decide, by decide,
      C7_detail_failure_policy.2.1 pageEnvNavFail cssW xengW kakaoDetailSelectors
        basicK "/content/123" (by decide) (by decide) (by decide) (by decide)⟩,
    C7_detail_failure_policy.2.2 (fun _ => none) [basicK]⟩

/-- C8: normalizing a RawItem whose keywords field is the comma-joined
string of two Korean genres with one repeated yields exactly that
two-element keyword set (up to order); in general a comma-joined keyword
string is coerced to a list whose membership is exactly the trimmed
non-empty split parts, and every normalized keyword list is duplicate-free
and contains no empty string. -/
theorem C8_normalize_keywords :
    List.Perm (normalize_novel_data "kakao_page" rawC8).keywords ["로맨스", "판타지"]
    ∧ (∀ (platform : String) (raw : RawItem),
        (normalize_novel_data platform raw).keywords.Nodup
        ∧ "" ∉ (normalize_novel_data platform raw).keywords)
    ∧ (∀ (platform : String) (raw : RawItem) (s k : String),
        raw.lookup "keywords" = some (Value.str s) →
        (k ∈ (normalize_novel_data platform raw).keywords ↔
          (k ∈ (pySplit "," s).map pyStrip ∧ k ≠ ""))) := by
  refine ⟨by decide, ?_, ?_⟩
  · intro platform raw
    constructor
    · exact List.nodup_dedup _
    · intro hmem
      rw [show (normalize_novel_data platform raw).keywords
          = extract_keywords raw from rfl] at hmem
      rw [extract_keywords, List.mem_dedup, List.mem_filter] at hmem
      simp at hmem
  · intro platform raw s k h
    rw [show (normalize_novel_data platform raw).keywords
        = extract_keywords raw from rfl]
    rw [extract_keywords, h]
    rw [show (some (Value.str s)).getD (Value.list []) = Value.str s from rfl]
    rw [show keywordsBase (Value.str s) = (pySplit "," s).map pyStrip from rfl]
    rw [List.mem_dedup, List.mem_filter]
    simp

/-- Witness for C8: the membership characterization applied to the
concrete comma-joined keyword string. -/
theorem C8_normalize_keywords_witness :
    rawC8.lookup "keywords" = some (Value.str "로맨스, 판타지, 로맨스")
    ∧ ("판타지" ∈ (normalize_novel_data "kakao_page" rawC8).keywords ↔
        ("판타지" ∈ (pySplit "," "로맨스, 판타지, 로맨스").map pyStrip
          ∧ ("판타지" : String) ≠ "")) := by
  exact ⟨by decide,
    C8_normalize_keywords.2.2 "kakao_page" rawC8 "로맨스, 판타지, 로맨스" "판타지"
      (by decide)⟩

/-- C9 counterexample to the claim as stated: an entity whose author is
empty is not retained — `deduplicate_novels` drops it outright because the
guard also requires both key components to be non-empty before appending. -/
theorem C9_empty_author_dropped : deduplicate_novels [entC9] = [] := by
  decide

/-- C9 amended: `deduplicate_novels` keys entities by the lower-cased,
trimmed (title, author) pair; the output is a sublist of the input (order
of first occurrences preserved), every retained entity has both key
components non-empty, retained keys are pairwise distinct (subsequent
same-key entities are dropped), and the first entity of the list with a
given non-empty key (no earlier same-key element) is always retained;
entities with an empty title or author are dropped entirely and in
particular never enter the seen set. -/
theorem C9_dedup_amended (l : List Entity) :
    (deduplicate_novels l).Sublist l
    ∧ (∀ e ∈ deduplicate_novels l, (dedupKey e).1 ≠ "" ∧ (dedupKey e).2 ≠ "")
    ∧ (deduplicate_novels l).Pairwise (fun a b => dedupKey a ≠ dedupKey b)
    ∧ (∀ (p : List Entity) (n : Entity) (q : List Entity),
        l = p ++ n :: q → (dedupKey n).1 ≠ "" → (dedupKey n).2 ≠ "" →
        (∀ x ∈ p, dedupKey x ≠ dedupKey n) → n ∈ deduplicate_novels l) := by
  refine ⟨dedupGo_sublist l [], ?_, dedupGo_pairwise l [], ?_⟩
  · intro e he
    have h2 := dedupGo_mem l [] e he
    exact ⟨h2.1, h2.2.1⟩
  · intro p n q hl h1 h2 hp
    subst hl
    exact dedupGo_first p [] n q (List.not_mem_nil _) h1 h2 hp

/-- Witness for C9 amended: a three-entity list in which the second entity
is a case/whitespace variant of the first; the first occurrence is
retained. -/
theorem C9_dedup_amended_witness :
    (([entB1, entB2, entB3] : List Entity) = [] ++ entB1 :: [entB2, entB3]
      ∧ (dedupKey entB1).1 ≠ "" ∧ (dedupKey entB1).2 ≠ ""
      ∧ (∀ x ∈ ([] : List Entity), dedupKey x ≠ dedupKey entB1))
    ∧ entB1 ∈ deduplicate_novels [entB1, entB2, entB3]
    ∧ entB1 ∈ deduplicate_novels [entB1, entB2, entB3] := by
  refine ⟨⟨rfl, by decide, by decide, fun x hx => absurd hx (List.not_mem_nil x)⟩,
    (C9_dedup_amended [entB1, entB2, entB3]).2.2.2 [] entB1 [entB2, entB3] rfl
      (by decide) (by decide) (fun x hx => absurd hx (List.not_mem_nil x)),
    by decide⟩

/-- C10: every item returned by either pagination strategy carries a
truthy (present, non-empty) url value — an extracted item whose url field
is missing, empty or otherwise falsy is never appended, whatever its other
fields contain. -/
theorem C10_every_result_has_url (scans : Nat → List RawItem)
    (next : Nat → NextOutcome) (limit fuel : Nat) :
    (∀ r ∈ extract_with_scroll scans limit, truthyO (r.lookup "url") = true)
    ∧ (∀ res, extract_with_pagination scans next limit fuel = some res →
        ∀ r ∈ res, truthyO (r.lookup "url") = true) := by
  constructor
  · intro r hr
    obtain ⟨m, hm⟩ := scrollGo_decomp scans limit [] 0 0
    have hinv := addItems_inv limit (catScans scans 0 m) [] urlInv_nil
    rw [extract_with_scroll, hm] at hr
    exact (urlInv_take _ limit hinv).2 r hr
  · intro res hres r hr
    rw [extract_with_pagination] at hres
    cases hp : pagGo scans next limit fuel [] 0 with
    | none => rw [hp] at hres; cases hres
    | some r0 =>
      rw [hp] at hres
      simp only [Option.map_some', Option.some.injEq] at hres
      obtain ⟨m, hm⟩ := pagGo_decomp scans next limit fuel [] 0 r0 hp
      have hinv := addItems_inv limit (catScans scans 0 m) [] urlInv_nil
      rw [← hres, hm] at hr
      exact (urlInv_take _ limit hinv).2 r hr

/-- Witness for C10: the scroll run and the pagination run over `scansA`
collect exactly `itemA`, whose url value is truthy. -/
theorem C10_every_result_has_url_witness :
    (itemA ∈ extract_with_scroll scansA 1 ∧ truthyO (itemA.lookup "url") = true)
    ∧ (extract_with_pagination scansA nextW 1 5 = some [itemA]
      ∧ itemA ∈ [itemA] ∧ truthyO (itemA.lookup "url") = true) := by
  have hmem : itemA ∈ extract_with_scroll scansA 1 := by
    rw [scroll_scansA_eval]
    exact List.mem_singleton_self _
  have heq : extract_with_pagination scansA nextW 1 5 = some [itemA] := by decide
  have hm2 : itemA ∈ [itemA] := List.mem_singleton_self _
  exact ⟨⟨hmem, (C10_every_result_has_url scansA nextW 1 5).1 itemA hmem⟩,
    ⟨heq, hm2, (C10_every_result_has_url scansA nextW 1 5).2 [itemA] heq itemA hm2⟩⟩

end Crawler
